import Mathlib

/-!
Verification development for the llm-code-deployer server (src/server.py).

The server accepts a task request, builds a file bundle (LLM or template),
publishes it to a GitHub repository, configures Pages, polls the published
site, and posts the result to a callback URL.  The embedding below models
the pure data flow of `api_task` and its helpers; every remote HTTP call is
mediated by a `World` record of response oracles, and the sequence of remote
requests actually issued is collected as a trace of `Eff` events.
-/

/-- Bytes are modeled as lists of naturals (one per byte).  The byte values of
string contents are taken to be the character codepoints; no claim inspects
multi-byte encodings. -/
abbrev ByteSeq := List Nat

/-- Encoding of a Python `str` to bytes (`.encode()`), modeled per codepoint. -/
def strBytes (s : String) : ByteSeq := s.data.map Char.toNat

/-- The standard base64 alphabet, as used by `base64.b64encode`/`b64decode`. -/
def b64Alphabet : List Char :=
  "ABCDEFGHIJKLMNOPQRSTUVWXYZabcdefghijklmnopqrstuvwxyz0123456789+/".data

/-- Index of a character in the base64 alphabet, `none` for non-alphabet chars. -/
def b64Index (c : Char) : Option Nat := b64Alphabet.findIdx? (fun x => x == c)

/-- Character at a sextet value in the base64 alphabet. -/
def b64Char (n : Nat) : Char := b64Alphabet.getD n 'A'

/-- Split a byte list into groups of at most three, as base64 encoding does. -/
def chunk3 : List Nat → List (List Nat)
  | a :: b :: c :: rest => [a, b, c] :: chunk3 rest
  | [] => []
  | rest => [rest]

/-- Base64-encode one group of one to three bytes into four characters. -/
def b64encGroup : List Nat → List Char
  | [a] => [b64Char (a / 4), b64Char (a % 4 * 16), '=', '=']
  | [a, b] => [b64Char (a / 4), b64Char (a % 4 * 16 + b / 16), b64Char (b % 16 * 4), '=']
  | [a, b, c] =>
      [b64Char (a / 4), b64Char (a % 4 * 16 + b / 16), b64Char (b % 16 * 4 + c / 64),
       b64Char (c % 64)]
  | _ => []

/-- Model of `base64.b64encode(b).decode()` from the source helper
`b64encode_bytes`. -/
def b64encode_bytes (b : ByteSeq) : String :=
  String.mk (((chunk3 b).map b64encGroup).flatten)

/-- Decode base64 text four characters at a time; `=` padding is accepted only
at the end, and a quad with a non-alphabet character is an error, matching
`binascii` on already-filtered input. -/
def b64DecodeQuads : List Char → Except String ByteSeq
  | [] => Except.ok []
  | c0 :: c1 :: c2 :: c3 :: rest =>
    match b64Index c0, b64Index c1 with
    | some a, some b =>
      if c2 = '=' then
        (if c3 = '=' ∧ rest = [] then Except.ok [a * 4 + b / 16]
         else Except.error "Invalid base64-encoded string")
      else
        match b64Index c2 with
        | some c =>
          if c3 = '=' then
            (if rest = [] then Except.ok [a * 4 + b / 16, b % 16 * 16 + c / 4]
             else Except.error "Invalid base64-encoded string")
          else
            match b64Index c3 with
            | some d =>
              (b64DecodeQuads rest).map
                (fun tl => (a * 4 + b / 16) :: (b % 16 * 16 + c / 4) :: (c % 4 * 64 + d) :: tl)
            | none => Except.error "Invalid base64-encoded string"
        | none => Except.error "Invalid base64-encoded string"
    | _, _ => Except.error "Invalid base64-encoded string"
  | _ => Except.error "Incorrect padding"

/-- Model of `base64.b64decode` with its default `validate=False`: characters
outside the alphabet (and padding) are discarded, then the remaining length
must be a multiple of four. -/
def b64decode (s : String) : Except String ByteSeq :=
  let cs := s.data.filter (fun c => (b64Index c).isSome || c == '=')
  if cs.length % 4 = 0 then b64DecodeQuads cs else Except.error "Incorrect padding"

/-- Case-insensitive character comparison, for the `re.IGNORECASE` flag on
`DATA_URI_RE`. -/
def charCI (a b : Char) : Bool := a.toLower == b.toLower

/-- Strip a literal pattern (first argument) from the front of a string,
case-insensitively; `none` when the pattern is not there. -/
def stripCI : List Char → List Char → Option (List Char)
  | [], s => some s
  | _ :: _, [] => none
  | p :: ps, c :: cs => if charCI c p then stripCI ps cs else none

/-- Characters admitted by the mime-type group `[\w/.\+\-]` of `DATA_URI_RE`. -/
def isMimeChar (c : Char) : Bool :=
  c.isAlpha || c.isDigit || c == '_' || c == '/' || c == '.' || c == '+' || c == '-'

/-- Model of `DATA_URI_RE.match`: the anchored, case-insensitive regex
`^data:([\w/.\+\-]+);base64,(.*)$`.  The mime group is the maximal nonempty
run of mime characters (`;` is not a mime character, so the regex engine
cannot backtrack into the literal), and `(.*)$` forbids newlines in the
payload except for a single trailing one, which `$` skips.  Returns the two
captured groups on success. -/
def matchDataUri (s : String) : Option (String × String) :=
  match stripCI "data:".data s.data with
  | none => none
  | some r1 =>
    let mime := r1.takeWhile isMimeChar
    let r2 := r1.dropWhile isMimeChar
    if mime = [] then none
    else
      match stripCI ";base64,".data r2 with
      | none => none
      | some payload =>
        if payload.contains '\n' then
          match payload.getLast? with
          | some lc =>
            if lc = '\n' ∧ ¬ payload.dropLast.contains '\n' then
              some (String.mk mime, String.mk payload.dropLast)
            else none
          | none => none
        else some (String.mk mime, String.mk payload)

/-- Lookup in a Python-dict model (association list with unique keys kept in
insertion order). -/
def dlookup {β : Type} (d : List (String × β)) (k : String) : Option β :=
  (d.find? (fun p => p.1 == k)).map (fun p => p.2)

/-- Python dict assignment `d[k] = v`: update in place when the key already
exists, otherwise append, preserving insertion order. -/
def dinsert {β : Type} (d : List (String × β)) (k : String) (v : β) : List (String × β) :=
  if (d.find? (fun p => p.1 == k)).isSome then
    d.map (fun p => if p.1 == k then (k, v) else p)
  else d ++ [(k, v)]

/-- Python `d.setdefault(k, v)`: insert only when the key is absent. -/
def dsetdefault {β : Type} (d : List (String × β)) (k : String) (v : β) : List (String × β) :=
  if (dlookup d k).isSome then d else d ++ [(k, v)]

deriving instance DecidableEq for Except

/-- An attachment of the task request: a file name and a data URI. -/
structure Attachment where
  name : String
  url : String
  deriving DecidableEq

/-- The request body of `POST /api-task` (pydantic model `TaskPayload`). -/
structure TaskPayload where
  email : String
  secret : String
  task : String
  round : Int
  nonce : String
  brief : String
  checks : List String
  evaluation_url : String
  attachments : List Attachment
  deriving DecidableEq

/-- The process-wide configuration read from the environment at import time
(lines 10-14 of the source). -/
structure Config where
  SECRET : String
  GITHUB_TOKEN : String
  GITHUB_USERNAME : String
  LLM_URL : String
  LLM_AUTH : String
  deriving DecidableEq

/-- Process start: each variable is read with an empty-string default (and the
LLM ones stripped); nothing is validated and nothing can fail here. -/
def startup (env : String → Option String) : Config :=
  { SECRET := (env "SECRET").getD ""
  , GITHUB_TOKEN := (env "GITHUB_TOKEN").getD ""
  , GITHUB_USERNAME := (env "GITHUB_USERNAME").getD ""
  , LLM_URL := ((env "LLM_URL").getD "").trim
  , LLM_AUTH := ((env "LLM_AUTH").getD "").trim }

/-- Errors a request handler can raise: `HTTPException(status, detail)`, a
`ValueError` (from attachment parsing), or `raise_for_status` on an HTTP
response. -/
inductive Err where
  | http (status : Nat) (detail : String)
  | value (msg : String)
  | statusError (status : Nat)
  deriving DecidableEq

/-- JSON scalar values appearing in the response document. -/
inductive J where
  | s (v : String)
  | i (v : Int)
  deriving DecidableEq

/-- The JSON body sent with a contents PUT: commit message, base64 content,
and the optional version token (`sha`). -/
structure PutPayload where
  message : String
  content : String
  sha : Option String
  deriving DecidableEq

/-- One remote side effect issued by the pipeline, in program order. -/
inductive Eff where
  | llmCall
  | repoGet (owner repo : String)
  | repoCreate (repo : String)
  | permPut (owner repo : String)
  | pagesGet (owner repo : String)
  | pagesCreate (owner repo : String)
  | pagesUpdate (owner repo : String)
  | contentsGet (owner repo path : String)
  | contentsPut (owner repo path : String) (payload : PutPayload)
  | sitePoll (url : String) (t : Nat)
  | callbackPost (url : String) (attempt : Nat)
  deriving DecidableEq

/-- Oracles for every remote interaction: statuses and bodies the outside
world would answer with.  Per-path oracles model the GitHub contents API;
`site` gives the page status over (discrete) time; `postResp` gives the
callback response per attempt (`none` is a transport error). -/
structure World where
  repoGetStatus : Nat
  repoCreateStatus : Nat
  permPutStatus : Nat
  pagesGetStatus : Nat
  pagesBuildType : String
  pagesCreateStatus : Nat
  pagesUpdateStatus : Nat
  contentsGetStatus : String → Nat
  contentsGetSha : String → Option String
  putStatus : String → Nat
  putCommitSha : String → String
  llmFiles : Option (List (String × String))
  site : Nat → Bool
  postResp : Nat → Option Nat
  year : String

/-- Recursive worker for `parse_attachments`: walk the attachment list, fail
with the `ValueError` message of the source on the first URI that does not
match `DATA_URI_RE`, propagate a `binascii` decoding error, and otherwise
assign `out[a.name] = base64.b64decode(payload)`. -/
def parseAtts : List Attachment → List (String × ByteSeq) → Except Err (List (String × ByteSeq))
  | [], out => Except.ok out
  | a :: rest, out =>
    match matchDataUri a.url with
    | none => Except.error (Err.value ("Attachment " ++ a.name ++ " is not a base64 data URI"))
    | some mp =>
      match b64decode mp.2 with
      | Except.error e => Except.error (Err.value e)
      | Except.ok bs => parseAtts rest (dinsert out a.name bs)

/-- Model of `parse_attachments` (lines 97-104 of the source). -/
def parse_attachments (atts : List Attachment) : Except Err (List (String × ByteSeq)) :=
  parseAtts atts []

/-- Model of `try_llm_generate`: `None` unless both LLM settings are nonempty
(Python truthiness of the stripped strings); otherwise one chat-completion
call whose entire failure surface (network, status, JSON shape, missing
`index.html`) is collapsed into the `llmFiles` oracle, exactly as the
source collapses it with `except Exception: return None`. -/
def try_llm_generate (cfg : Config) (w : World) (_brief : String) (_att_names : List String) :
    Option (List (String × String)) × List Eff :=
  if cfg.LLM_URL = "" ∨ cfg.LLM_AUTH = "" then (none, [])
  else
    ((match w.llmFiles with
      | some fs => if (dlookup fs "index.html").isSome then some fs else none
      | none => none), [Eff.llmCall])

/-- The sum-of-sales HTML template.  The literal is abbreviated: no claim
inspects the template text, only which paths receive which template. -/
def tmpl_sum_of_sales : String :=
  "<!doctype html><html><head><meta charset=utf-8><title>Sales Summary</title></head><body class=container p-4><h1>Sales Summary</h1><p>Total: <strong id=total-sales>0</strong></p><table id=product-sales class=table></table><script>fetch data.csv, sum the sales column, fill the table</script></body></html>"

/-- Does the pattern occur at the front of the character list? -/
def hasPfx : List Char → List Char → Bool
  | [], _ => true
  | _ :: _, [] => false
  | p :: ps, c :: cs => p == c && hasPfx ps cs

/-- Python substring test `pat in s` on character lists. -/
def containsSub : List Char → List Char → Bool
  | [], pat => hasPfx pat []
  | c :: rest, pat => hasPfx pat (c :: rest) || containsSub rest pat

/-- Model of `template_from_brief` (lines 165-175): the sum-of-sales template
when the lowered brief mentions it (adding a fallback `data.csv` only when no
attachment supplies one), else a generic page embedding the brief. -/
def template_from_brief (brief : String) (atts : List (String × ByteSeq)) :
    List (String × ByteSeq) :=
  let b := brief.data.map Char.toLower
  if containsSub b "sum-of-sales".data || (containsSub b "sales".data && containsSub b "csv".data)
  then
    let files := dinsert ([] : List (String × ByteSeq)) "index.html" (strBytes tmpl_sum_of_sales)
    if (dlookup atts "data.csv").isSome then files
    else dinsert files "data.csv" (strBytes "product,sales\nA,10\nB,20.5\n")
  else
    dinsert ([] : List (String × ByteSeq)) "index.html"
      (strBytes ("<!doctype html><html><body><h1>Generated App</h1><pre>" ++ brief ++
        "</pre></body></html>"))

/-- The attachment-merge loop of `api_task` (lines 315-317):
`for name, blob in att_bytes.items(): files.setdefault(name, blob)`. -/
def merge_attachments (files atts : List (String × ByteSeq)) : List (String × ByteSeq) :=
  atts.foldl (fun fs p => dsetdefault fs p.1 p.2) files

/-- Repository-name derivation (line 319): `body.task.replace("/", "-")`.
With a one-character pattern, Python `str.replace` substitutes each
occurrence of that character and touches nothing else. -/
def repoNameOf (task : String) : String :=
  String.mk (task.data.map (fun c => if c = '/' then '-' else c))

/-- The MIT license template (lines 34-42), formatted with year and owner.
The inert middle of the literal is abbreviated: no claim inspects it. -/
def MIT_LICENSE (year owner : String) : String :=
  "MIT License\n\nCopyright (c) " ++ year ++ " " ++ owner ++
    "\n\nPermission is hereby granted, free of charge, to any person obtaining a copy\nof this software and associated documentation files...\nTHE SOFTWARE IS PROVIDED AS IS, WITHOUT WARRANTY OF ANY KIND...\n"

/-- The Pages workflow YAML (lines 45-79).  Abbreviated, as no claim inspects
the workflow text, only that it is written to `.github/workflows/pages.yml`. -/
def PAGES_WORKFLOW : String :=
  "name: GitHub Pages\non: push to main, workflow_dispatch\npermissions: contents read, pages write, id-token write\njobs: build with actions/upload-pages-artifact@v3 then deploy with actions/deploy-pages@v4\n"

/-- Model of `ensure_repo` (lines 178-190): GET the repository; on 404, create
it and `raise_for_status` on the creation response; otherwise
`raise_for_status` on the GET response.  `raise_for_status` raises exactly
for statuses of 400 and above. -/
def ensure_repo (w : World) (owner repo : String) : Except Err Unit × List Eff :=
  if w.repoGetStatus = 404 then
    ((if 400 ≤ w.repoCreateStatus then Except.error (Err.statusError w.repoCreateStatus)
      else Except.ok ()),
     [Eff.repoGet owner repo, Eff.repoCreate repo])
  else
    ((if 400 ≤ w.repoGetStatus then Except.error (Err.statusError w.repoGetStatus)
      else Except.ok ()),
     [Eff.repoGet owner repo])

/-- Model of `ensure_actions_write_permissions` (lines 192-202): one PUT whose
failure is only printed, never raised. -/
def ensure_actions_write_permissions (_w : World) (owner repo : String) :
    Except Err Unit × List Eff :=
  (Except.ok (), [Eff.permPut owner repo])

/-- Model of `ensure_pages_site` (lines 204-231): GET the Pages config; on 404
create it (raising a 500 `HTTPException` unless the create answers 201/204);
on 200 update the build type when it is not `workflow`, with an update
failure only printed; on any other GET status raise a 500 `HTTPException`.
The response-body text of the source detail strings is not modeled. -/
def ensure_pages_site (w : World) (owner repo : String) : Except Err Unit × List Eff :=
  if w.pagesGetStatus = 404 then
    ((if w.pagesCreateStatus = 201 ∨ w.pagesCreateStatus = 204 then Except.ok ()
      else Except.error (Err.http 500 ("Failed to create Pages site: " ++
        toString w.pagesCreateStatus))),
     [Eff.pagesGet owner repo, Eff.pagesCreate owner repo])
  else if w.pagesGetStatus = 200 then
    if w.pagesBuildType ≠ "workflow" then
      (Except.ok (), [Eff.pagesGet owner repo, Eff.pagesUpdate owner repo])
    else
      (Except.ok (), [Eff.pagesGet owner repo])
  else
    (Except.error (Err.http 500 ("Unexpected Pages GET: " ++ toString w.pagesGetStatus)),
     [Eff.pagesGet owner repo])

/-- The version token the contents GET of `put_file` yields for a path: the
`sha` field of the JSON body when the status is 200, subjected to the
source's truthiness test `if sha:` (absent and empty both count as no
token). -/
def expected_sha (w : World) (path : String) : Option String :=
  if w.contentsGetStatus path = 200 then
    match w.contentsGetSha path with
    | some s => if s = "" then none else some s
    | none => none
  else none

/-- The JSON payload `put_file` sends: message, base64-encoded content, and
the version token exactly when the fresh GET produced one. -/
def putPayloadOf (w : World) (path : String) (content_bytes : ByteSeq) (message : String) :
    PutPayload :=
  { message := message, content := b64encode_bytes content_bytes, sha := expected_sha w path }

/-- Model of `put_file` (lines 233-245): read the current sha of exactly this
path, then PUT the content with that sha in the payload when present;
`raise_for_status` on the PUT; return the new commit sha. -/
def put_file (w : World) (owner repo path : String) (content_bytes : ByteSeq)
    (message : String) : Except Err String × List Eff :=
  ((if 400 ≤ w.putStatus path then Except.error (Err.statusError (w.putStatus path))
    else Except.ok (w.putCommitSha path)),
   [Eff.contentsGet owner repo path,
    Eff.contentsPut owner repo path (putPayloadOf w path content_bytes message)])

/-- The app-file loop of `commit_bundle`: write each bundle file in iteration
order, keeping the commit sha of the last successful write. -/
def commitAppFiles (w : World) (owner repo task : String) :
    List (String × ByteSeq) → String → Except Err String × List Eff
  | [], last => (Except.ok last, [])
  | (path, blob) :: rest, last =>
    let pr := put_file w owner repo path blob ("[" ++ task ++ "] " ++ path)
    match pr.1 with
    | Except.error e => (Except.error e, pr.2)
    | Except.ok sha =>
      let r := commitAppFiles w owner repo task rest sha
      (r.1, pr.2 ++ r.2)

/-- Model of `commit_bundle` (lines 247-261): LICENSE, README, the Pages
workflow, then every bundle file, each through `put_file`; the returned
commit sha is that of the last successful write. -/
def commit_bundle (w : World) (owner repo : String) (files : List (String × ByteSeq))
    (brief task : String) (round_i : Int) (pages_url : String) :
    Except Err String × List Eff :=
  let p1 := put_file w owner repo "LICENSE" (strBytes (MIT_LICENSE w.year owner))
    ("[" ++ task ++ "] LICENSE")
  match p1.1 with
  | Except.error e => (Except.error e, p1.2)
  | Except.ok _ =>
    let readme := "# " ++ repo ++ "\n\nTask: `" ++ task ++ "` (round " ++ toString round_i ++
      ")\n\nBrief:\n\n" ++ brief ++ "\n\nPages: " ++ pages_url ++ "\n\nLicense: MIT\n"
    let p2 := put_file w owner repo "README.md" (strBytes readme) ("[" ++ task ++ "] README")
    match p2.1 with
    | Except.error e => (Except.error e, p1.2 ++ p2.2)
    | Except.ok _ =>
      let p3 := put_file w owner repo ".github/workflows/pages.yml" (strBytes PAGES_WORKFLOW)
        ("[" ++ task ++ "] pages workflow")
      match p3.1 with
      | Except.error e => (Except.error e, p1.2 ++ p2.2 ++ p3.2)
      | Except.ok s3 =>
        let p4 := commitAppFiles w owner repo task files s3
        (p4.1, p1.2 ++ p2.2 ++ p3.2 ++ p4.2)

/-- Loop of `wait_for_200` (lines 263-277) over discrete seconds: while the
elapsed time is below the deadline, issue a GET (instantaneous in the
model), return true on a 200, otherwise sleep three seconds.  The first
argument is structural recursion fuel; a fuel of at least `timeout_s + 1 - t`
is never exhausted, since `t` grows every iteration. -/
def waitAux (site : Nat → Bool) (url : String) (timeout_s : Nat) :
    Nat → Nat → (Bool × Nat) × List Eff
  | 0, t => ((false, t), [])
  | Nat.succ n, t =>
    if t < timeout_s then
      if site t then ((true, t), [Eff.sitePoll url t])
      else
        let r := waitAux site url timeout_s n (t + 3)
        (r.1, Eff.sitePoll url t :: r.2)
    else ((false, t), [])

/-- Model of `wait_for_200`: run the polling loop from time zero; the result
carries the boolean outcome and the time at which the function returned. -/
def wait_for_200 (site : Nat → Bool) (url : String) (timeout_s : Nat) :
    (Bool × Nat) × List Eff :=
  waitAux site url timeout_s (timeout_s + 1) 0

/-- Loop of `post_with_backoff` (lines 279-291): up to `k` more attempts,
starting at attempt index `i` with current delay `d`; an attempt succeeds
exactly when the response status is 200; after any other outcome the loop
sleeps `d` (collected in the returned list) and doubles the delay — with no
upper cap anywhere. -/
def postLoop (post : Nat → Option Nat) (url : String) :
    Nat → Nat → Nat → (Bool × List Nat) × List Eff
  | 0, _, _ => ((false, []), [])
  | Nat.succ k, i, d =>
    if post i = some 200 then ((true, []), [Eff.callbackPost url i])
    else
      let r := postLoop post url k (i + 1) (d * 2)
      ((r.1.1, d :: r.1.2), Eff.callbackPost url i :: r.2)

/-- Model of `post_with_backoff`: `max_tries` attempts beginning with a delay
of one second.  The result carries the success flag and the sequence of
sleeps performed. -/
def post_with_backoff (post : Nat → Option Nat) (url : String) (max_tries : Nat) :
    (Bool × List Nat) × List Eff :=
  postLoop post url max_tries 0 1

/-- The `api_task` handler (lines 298-332) up to and including the bundle
commit: secret check, GitHub-config check, attachment parsing, generation
(LLM or template), attachment merge, repository/permissions/Pages
reconciliation, and the commit.  Returns the commit sha on success together
with the trace of remote calls made so far. -/
def api_core (cfg : Config) (body : TaskPayload) (w : World) : Except Err String × List Eff :=
  if body.secret ≠ cfg.SECRET then (Except.error (Err.http 403 "invalid secret"), [])
  else if cfg.GITHUB_TOKEN = "" ∨ cfg.GITHUB_USERNAME = "" then
    (Except.error (Err.http 500 "server missing GitHub config"), [])
  else
    match parse_attachments body.attachments with
    | Except.error e => (Except.error e, [])
    | Except.ok att_bytes =>
      let lr := try_llm_generate cfg w body.brief (att_bytes.map Prod.fst)
      let files0 := match lr.1 with
        | some ft => ft.map (fun pv => (pv.1, strBytes pv.2))
        | none => template_from_brief body.brief att_bytes
      let files := merge_attachments files0 att_bytes
      let repo_name := repoNameOf body.task
      let pages_url := "https://" ++ cfg.GITHUB_USERNAME ++ ".github.io/" ++ repo_name ++ "/"
      let er := ensure_repo w cfg.GITHUB_USERNAME repo_name
      match er.1 with
      | Except.error e => (Except.error e, lr.2 ++ er.2)
      | Except.ok _ =>
        let pm := ensure_actions_write_permissions w cfg.GITHUB_USERNAME repo_name
        let ps := ensure_pages_site w cfg.GITHUB_USERNAME repo_name
        match ps.1 with
        | Except.error e => (Except.error e, lr.2 ++ er.2 ++ pm.2 ++ ps.2)
        | Except.ok _ =>
          let cb := commit_bundle w cfg.GITHUB_USERNAME repo_name files body.brief body.task
            body.round pages_url
          (cb.1, lr.2 ++ er.2 ++ pm.2 ++ ps.2 ++ cb.2)

/-- The complete `api_task` handler (lines 298-349): after the commit, poll
the Pages URL for up to 180 seconds with the result discarded, build the
response document, post it to the evaluation URL with backoff (result also
discarded), and return it. -/
def api_task (cfg : Config) (body : TaskPayload) (w : World) :
    Except Err (List (String × J)) × List Eff :=
  let core := api_core cfg body w
  match core.1 with
  | Except.error e => (Except.error e, core.2)
  | Except.ok commit_sha =>
    let repo_name := repoNameOf body.task
    let pages_url := "https://" ++ cfg.GITHUB_USERNAME ++ ".github.io/" ++ repo_name ++ "/"
    let pw := wait_for_200 w.site pages_url 180
    let resp := [("email", J.s body.email), ("task", J.s body.task),
                 ("round", J.i body.round), ("nonce", J.s body.nonce),
                 ("repo_url", J.s ("https://github.com/" ++ cfg.GITHUB_USERNAME ++ "/" ++
                   repo_name)),
                 ("commit_sha", J.s commit_sha), ("pages_url", J.s pages_url)]
    let pb := post_with_backoff w.postResp body.evaluation_url 8
    (Except.ok resp, core.2 ++ pw.2 ++ pb.2)

/-- Boolean success test on `Except`. -/
def exceptOk {α : Type} : Except Err α → Bool
  | Except.ok _ => true
  | Except.error _ => false

/-- A concrete configuration used by concrete runs in witnesses and
counterexamples. -/
def cfgEx : Config :=
  { SECRET := "s", GITHUB_TOKEN := "t", GITHUB_USERNAME := "u", LLM_URL := "", LLM_AUTH := "" }

/-- A concrete request used by concrete runs. -/
def reqEx : TaskPayload :=
  { email := "a@b.c", secret := "s", task := "demo", round := 1, nonce := "n", brief := "hi",
    checks := [], evaluation_url := "https://eval.example/cb", attachments := [] }

/-- A world in which every remote call succeeds: the repository exists, Pages
is already on the workflow build type, no file has a previous version, every
write succeeds with commit sha `c`, the site is immediately reachable, and
the callback answers 200 at once. -/
def okWorld : World :=
  { repoGetStatus := 200, repoCreateStatus := 201, permPutStatus := 200,
    pagesGetStatus := 200, pagesBuildType := "workflow", pagesCreateStatus := 201,
    pagesUpdateStatus := 200,
    contentsGetStatus := fun _ => 404, contentsGetSha := fun _ => none,
    putStatus := fun _ => 200, putCommitSha := fun _ => "c",
    llmFiles := none, site := fun _ => true, postResp := fun _ => some 200, year := "2026" }

/-- The concrete response document produced by the benign run `api_task cfgEx
reqEx okWorld`. -/
def respEx0 : List (String × J) :=
  [("email", J.s "a@b.c"), ("task", J.s "demo"), ("round", J.i 1), ("nonce", J.s "n"),
   ("repo_url", J.s "https://github.com/u/demo"), ("commit_sha", J.s "c"),
   ("pages_url", J.s "https://u.github.io/demo/")]

/-- Freshness discipline of a committer trace: the trace is a sequence of
two-event blocks, each a contents GET immediately followed by a contents PUT
of the same owner, repository and path, whose payload carries exactly the
version token that fresh GET returned (`expected_sha`).  In particular every
write is immediately preceded by its own metadata read — nothing is cached
across files. -/
def freshOk (w : World) : List Eff → Bool
  | [] => true
  | Eff.contentsGet o r p :: Eff.contentsPut o2 r2 p2 pay :: rest =>
      decide (o = o2 ∧ r = r2 ∧ p = p2 ∧ pay.sha = expected_sha w p) && freshOk w rest
  | _ => false

/-! ## Helper lemmas -/

/-- The trace of a single `put_file`: one fresh GET, then the PUT. -/
theorem put_file_snd (w : World) (o r p : String) (c : ByteSeq) (m : String) :
    (put_file w o r p c m).2 =
      [Eff.contentsGet o r p, Eff.contentsPut o r p (putPayloadOf w p c m)] := rfl

/-- A GET/PUT block of the shape `put_file` emits satisfies the freshness
discipline. -/
theorem freshOk_pair (w : World) (o r p : String) (c : ByteSeq) (m : String) (rest : List Eff) :
    freshOk w (Eff.contentsGet o r p :: Eff.contentsPut o r p (putPayloadOf w p c m) :: rest) =
      freshOk w rest := by
  simp [freshOk, putPayloadOf]

/-- Every trace of the app-file loop satisfies the freshness discipline. -/
theorem commitAppFiles_fresh (w : World) (o r t : String) :
    ∀ (fs : List (String × ByteSeq)) (last : String),
      freshOk w (commitAppFiles w o r t fs last).2 = true := by
  intro fs
  induction fs with
  | nil => intro last; rfl
  | cons hd tl ih =>
    intro last
    obtain ⟨path, blob⟩ := hd
    by_cases h : 400 ≤ w.putStatus path
    · simp [commitAppFiles, put_file, h, freshOk_pair, freshOk]
    · simp [commitAppFiles, put_file, h, freshOk_pair, ih]

/-- Lookup in the head of an association list. -/
theorem dlookup_cons {β : Type} (a : String × β) (l : List (String × β)) (k : String) :
    dlookup (a :: l) k = if a.1 = k then some a.2 else dlookup l k := by
  by_cases h : a.1 = k <;> simp [dlookup, List.find?_cons, h]

/-- Lookup distributes over append, preferring the first list. -/
theorem dlookup_append {β : Type} (d1 d2 : List (String × β)) (k : String) :
    dlookup (d1 ++ d2) k =
      match dlookup d1 k with
      | some v => some v
      | none => dlookup d2 k := by
  induction d1 with
  | nil => simp [dlookup]
  | cons a l ih => by_cases h : a.1 = k <;> simp [dlookup_cons, h, ih]

/-- Lookup after a `setdefault`: an existing binding is untouched; otherwise
the key is bound to the new value. -/
theorem dlookup_dsetdefault {β : Type} (d : List (String × β)) (k : String) (v : β)
    (p : String) :
    dlookup (dsetdefault d k v) p =
      match dlookup d p with
      | some w => some w
      | none => if p = k then some v else none := by
  unfold dsetdefault
  by_cases hk : (dlookup d k).isSome
  · simp only [hk, if_pos]
    cases hp : dlookup d p with
    | some w => simp
    | none =>
      by_cases hpk : p = k
      · subst hpk; rw [hp] at hk; simp at hk
      · simp [hpk]
  · simp only [hk, if_neg, Bool.not_eq_true]
    rw [dlookup_append]
    cases hp : dlookup d p with
    | some w => simp
    | none =>
      show dlookup [(k, v)] p = if p = k then some v else none
      rw [dlookup_cons]
      by_cases hpk : p = k
      · simp [hpk]
      · have hkp : ¬ k = p := fun h => hpk h.symm
        simp [hpk, hkp, dlookup]

/-- When every attempt fails, the notifier loop makes exactly `k` attempts and
sleeps the full doubling sequence starting at `d` — after the last failed
attempt included. -/
theorem postLoop_fail (post : Nat → Option Nat) (url : String)
    (hf : ∀ j, post j ≠ some 200) :
    ∀ (k i d : Nat), postLoop post url k i d =
      ((false, (List.range k).map (fun j => d * 2 ^ j)),
       (List.range k).map (fun j => Eff.callbackPost url (i + j))) := by
  intro k
  induction k with
  | zero => intro i d; simp [postLoop]
  | succ k ih =>
    intro i d
    have h0 : ¬ post i = some 200 := hf i
    have e1 : ((fun j => d * 2 ^ j) ∘ Nat.succ) = fun j : Nat => d * 2 * 2 ^ j := by
      funext j; simp [Function.comp, pow_succ]; ring
    have e2 : ((fun j => Eff.callbackPost url (i + j)) ∘ Nat.succ) =
        fun j : Nat => Eff.callbackPost url (i + 1 + j) := by
      funext j
      simp only [Function.comp]
      congr 1
      omega
    simp only [postLoop, h0, if_neg, ite_false, ih (i + 1) (d * 2),
      List.range_succ_eq_map, List.map_cons, List.map_map, e1, e2]
    simp

/-- The notifier loop reports success exactly when some attempt within its
budget answered status 200. -/
theorem postLoop_ok_iff (post : Nat → Option Nat) (url : String) :
    ∀ (k i d : Nat), (postLoop post url k i d).1.1 = true ↔
      ∃ j, j < k ∧ post (i + j) = some 200 := by
  intro k
  induction k with
  | zero => intro i d; simp [postLoop]
  | succ k ih =>
    intro i d
    by_cases h : post i = some 200
    · simp only [postLoop, h, if_pos, true_iff]
      exact ⟨0, by omega, by simpa using h⟩
    · simp only [postLoop, h, if_neg, ite_false]
      rw [ih (i + 1) (d * 2)]
      constructor
      · rintro ⟨j, hj, hp⟩
        exact ⟨j + 1, by omega, by rwa [show i + (j + 1) = i + 1 + j by omega]⟩
      · rintro ⟨j, hj, hp⟩
        cases j with
        | zero => rw [Nat.add_zero] at hp; exact absurd hp h
        | succ j => exact ⟨j, by omega, by rwa [show i + 1 + j = i + (j + 1) by omega]⟩

/-- If the site answers success from time `t0` on, and the loop starts at a
time at most `t0 + 2` (it advances in steps of three) with enough fuel, then
it returns true at a poll no earlier than `t0` and strictly before the
deadline, provided `t0 + 3 ≤ D`. -/
theorem waitAux_success (site : Nat → Bool) (url : String) (D t0 : Nat)
    (hsite : ∀ s, site s = true ↔ t0 ≤ s) (hD : t0 + 3 ≤ D) :
    ∀ (n t : Nat), D ≤ t + n → t ≤ t0 + 2 →
      ∃ r, (waitAux site url D n t).1 = (true, r) ∧ t0 ≤ r ∧ r < D := by
  intro n
  induction n with
  | zero => intro t hfuel ht; omega
  | succ n ih =>
    intro t hfuel ht
    have htD : t < D := by omega
    by_cases hst : t0 ≤ t
    · have hs : site t = true := (hsite t).mpr hst
      exact ⟨t, by simp [waitAux, htD, hs], hst, htD⟩
    · have hsf : site t = false := by
        cases hb : site t with
        | false => rfl
        | true => exact absurd ((hsite t).mp hb) hst
      obtain ⟨r, hr, h1, h2⟩ := ih (t + 3) (by omega) (by omega)
      exact ⟨r, by simp [waitAux, htD, hsf, hr], h1, h2⟩

/-- If the site never answers success, the loop returns false at a time no
earlier than the deadline (given enough fuel). -/
theorem waitAux_never (site : Nat → Bool) (url : String) (D : Nat)
    (hs : ∀ s, site s = false) :
    ∀ (n t : Nat), D ≤ t + n → ∃ r, (waitAux site url D n t).1 = (false, r) ∧ D ≤ r := by
  intro n
  induction n with
  | zero => intro t h; exact ⟨t, rfl, by omega⟩
  | succ n ih =>
    intro t h
    by_cases htD : t < D
    · obtain ⟨r, hr, h2⟩ := ih (t + 3) (by omega)
      exact ⟨r, by simp [waitAux, htD, hs, hr], h2⟩
    · exact ⟨t, by simp [waitAux, htD], by omega⟩

/-- The poller is the only component that reads the `site` oracle; every other
step is unchanged when it is replaced.  These are definitional. -/
theorem put_file_site (w : World) (s : Nat → Bool) (o r p : String) (c : ByteSeq)
    (m : String) : put_file { w with site := s } o r p c m = put_file w o r p c m := rfl

/-- Replacing the `site` oracle does not change the recorded year. -/
theorem world_site_year (w : World) (s : Nat → Bool) :
    ({ w with site := s } : World).year = w.year := rfl

/-- Replacing the `site` oracle does not change the LLM step. -/
theorem try_llm_site (cfg : Config) (w : World) (s : Nat → Bool) (b : String)
    (a : List String) :
    try_llm_generate cfg { w with site := s } b a = try_llm_generate cfg w b a := rfl

/-- Replacing the `site` oracle does not change the repository step. -/
theorem ensure_repo_site (w : World) (s : Nat → Bool) (o r : String) :
    ensure_repo { w with site := s } o r = ensure_repo w o r := rfl

/-- Replacing the `site` oracle does not change the permissions step. -/
theorem perm_site (w : World) (s : Nat → Bool) (o r : String) :
    ensure_actions_write_permissions { w with site := s } o r =
      ensure_actions_write_permissions w o r := rfl

/-- Replacing the `site` oracle does not change the Pages step. -/
theorem pages_site (w : World) (s : Nat → Bool) (o r : String) :
    ensure_pages_site { w with site := s } o r = ensure_pages_site w o r := rfl

/-- Replacing the `site` oracle does not change the app-file loop. -/
theorem commitAppFiles_site (w : World) (s : Nat → Bool) (o r t : String) :
    ∀ (fs : List (String × ByteSeq)) (last : String),
      commitAppFiles { w with site := s } o r t fs last = commitAppFiles w o r t fs last := by
  intro fs
  induction fs with
  | nil => intro last; rfl
  | cons hd tl ih => intro last; simp only [commitAppFiles, put_file_site, ih]

/-- Replacing the `site` oracle does not change the committer. -/
theorem commit_bundle_site (w : World) (s : Nat → Bool) (owner repo : String)
    (files : List (String × ByteSeq)) (brief task : String) (ri : Int) (pu : String) :
    commit_bundle { w with site := s } owner repo files brief task ri pu =
      commit_bundle w owner repo files brief task ri pu := by
  simp only [commit_bundle, world_site_year, put_file_site, commitAppFiles_site]

/-- Replacing the `site` oracle does not change anything up to and including
the commit. -/
theorem api_core_site (cfg : Config) (body : TaskPayload) (w : World) (s : Nat → Bool) :
    api_core cfg body { w with site := s } = api_core cfg body w := by
  simp only [api_core, try_llm_site, ensure_repo_site, perm_site, pages_site,
    commit_bundle_site]

/-! ## Claims -/

/-- Claim C1: a request whose secret does not equal the configured secret is
rejected with a 403 forbidden error and the trace of remote side effects is
empty — no repository lookup or creation, no permission or Pages call, no
file read or write, no availability poll, and no callback post. -/
theorem C1_bad_secret_no_side_effects (cfg : Config) (body : TaskPayload) (w : World)
    (h : body.secret ≠ cfg.SECRET) :
    api_task cfg body w = (Except.error (Err.http 403 "invalid secret"), []) := by
  simp [api_task, api_core, h]

/-- Witness for C1 at a concrete wrong-secret request against the benign
world. -/
theorem C1_witness :
    (({ reqEx with secret := "bad" } : TaskPayload).secret ≠ cfgEx.SECRET) ∧
    api_task cfgEx { reqEx with secret := "bad" } okWorld =
      (Except.error (Err.http 403 "invalid secret"), []) :=
  ⟨by decide,
   C1_bad_secret_no_side_effects cfgEx { reqEx with secret := "bad" } okWorld (by decide)⟩

/-- Claim C2: every trace of `commit_bundle` satisfies the freshness
discipline `freshOk`: each contents PUT is immediately preceded by a
contents GET of exactly the same path (the version token is re-fetched
immediately before each individual write, never cached across files), and
the PUT payload carries precisely the token that fresh read returned, when
one exists. -/
theorem C2_fresh_sha_before_every_write (w : World) (owner repo : String)
    (files : List (String × ByteSeq)) (brief task : String) (round_i : Int)
    (pages_url : String) :
    freshOk w (commit_bundle w owner repo files brief task round_i pages_url).2 = true := by
  by_cases h1 : 400 ≤ w.putStatus "LICENSE" <;>
    by_cases h2 : 400 ≤ w.putStatus "README.md" <;>
      by_cases h3 : 400 ≤ w.putStatus ".github/workflows/pages.yml" <;>
        simp [commit_bundle, put_file, h1, h2, h3, freshOk_pair, freshOk, putPayloadOf,
          commitAppFiles_fresh]

/-- Claim C3 counterexample: the code rejects the percent-encoded data-URI
form `data:<mime>,<payload>` that the claim says is accepted —
`DATA_URI_RE` demands the literal `;base64,` — so such an attachment raises
the ValueError instead of decoding. -/
theorem C3_counterexample_percent_form_rejected :
    matchDataUri "data:text/plain,hello%20world" = none ∧
    parse_attachments [{ name := "f.txt", url := "data:text/plain,hello%20world" }] =
      Except.error (Err.value "Attachment f.txt is not a base64 data URI") :=
  ⟨by decide, by decide⟩

/-- Claim C3 (amended): attachment decoding accepts only the base64 data-URI
form `data:<mime>;base64,<payload>`; an attachment whose URI does not match
that form — including the percent-encoded form `data:<mime>,<payload>` —
raises the descriptive ValueError naming the attachment, and a matching URI
with decodable payload yields the base64-decoded payload bytes. -/
theorem C3_base64_only_decoding :
    (∀ (a : Attachment) (rest : List Attachment), matchDataUri a.url = none →
       parse_attachments (a :: rest) =
         Except.error (Err.value ("Attachment " ++ a.name ++ " is not a base64 data URI")))
    ∧ (∀ (name url mime payload : String) (bs : ByteSeq),
       matchDataUri url = some (mime, payload) → b64decode payload = Except.ok bs →
       parse_attachments [{ name := name, url := url }] = Except.ok [(name, bs)]) := by
  constructor
  · intro a rest h
    simp [parse_attachments, parseAtts, h]
  · intro name url mime payload bs h1 h2
    simp [parse_attachments, parseAtts, h1, h2, dinsert]

/-- Witness for C3 at concrete inputs: a non-matching URI raises the
descriptive error; a base64 URI decodes to the payload bytes. -/
theorem C3_witness :
    (matchDataUri "not-a-data-uri" = none ∧
     parse_attachments [{ name := "f", url := "not-a-data-uri" }] =
       Except.error (Err.value "Attachment f is not a base64 data URI"))
    ∧ (matchDataUri "data:text/plain;base64,aGk=" = some ("text/plain", "aGk=") ∧
       b64decode "aGk=" = Except.ok [104, 105] ∧
       parse_attachments [{ name := "g", url := "data:text/plain;base64,aGk=" }] =
         Except.ok [("g", [104, 105])]) :=
  ⟨⟨by decide, C3_base64_only_decoding.1 { name := "f", url := "not-a-data-uri" } [] (by decide)⟩,
   ⟨by decide, by decide,
    C3_base64_only_decoding.2 "g" "data:text/plain;base64,aGk=" "text/plain" "aGk="
      [104, 105] (by decide) (by decide)⟩⟩

/-- Claim C4 counterexample: the inter-attempt delays of the notifier are not
capped by any fixed maximum — `delay *= 2` has no ceiling — so no constant
bounds the sleeps of an always-failing target across attempt budgets. -/
theorem C4_counterexample_delays_uncapped :
    ¬ ∃ C : Nat, ∀ n : Nat,
      ∀ d ∈ (post_with_backoff (fun _ => none) "https://eval.example/cb" n).1.2, d ≤ C := by
  rintro ⟨C, hC⟩
  have hfail : ∀ j : Nat, (fun _ : Nat => (none : Option Nat)) j ≠ some 200 := by
    intro j; simp
  have heq := postLoop_fail (fun _ => none) "https://eval.example/cb" hfail (C + 1) 0 1
  have hmem : (2 : Nat) ^ C ∈
      (post_with_backoff (fun _ => none) "https://eval.example/cb" (C + 1)).1.2 := by
    rw [post_with_backoff, heq]
    simp only [List.mem_map, List.mem_range, one_mul]
    exact ⟨C, by omega, rfl⟩
  have hle := hC (C + 1) (2 ^ C) hmem
  have hlt := Nat.lt_two_pow C
  omega

/-- Claim C4 (amended): against an always-failing target, the notifier makes
exactly `maxAttempts` delivery attempts and then reports failure; the sleeps
form the strictly increasing, uncapped doubling sequence 1, 2, 4, ... (one
sleep after every failed attempt, the last included); and in general an
attempt succeeds exactly when the response status is 200 — the overall
result is success precisely when some attempt within the budget returned
status 200. -/
theorem C4_retry_bound_uncapped_backoff :
    (∀ (post : Nat → Option Nat) (url : String) (n : Nat),
       (∀ j, post j ≠ some 200) →
       post_with_backoff post url n =
         ((false, (List.range n).map (fun j => 2 ^ j)),
          (List.range n).map (fun j => Eff.callbackPost url j)))
    ∧ (∀ (post : Nat → Option Nat) (url : String) (n : Nat),
       (∀ j, post j ≠ some 200) →
       ((post_with_backoff post url n).1.2).Pairwise (· < ·))
    ∧ (∀ (post : Nat → Option Nat) (url : String) (n : Nat),
       ((post_with_backoff post url n).1.1 = true ↔ ∃ j, j < n ∧ post j = some 200)) := by
  refine ⟨?_, ?_, ?_⟩
  · intro post url n h
    rw [post_with_backoff, postLoop_fail post url h]
    simp
  · intro post url n h
    rw [post_with_backoff, postLoop_fail post url h]
    refine List.Pairwise.map _ ?_ (List.pairwise_lt_range n)
    intro a b hab
    simp only [one_mul]
    exact Nat.pow_lt_pow_right (by omega) hab
  · intro post url n
    rw [post_with_backoff, postLoop_ok_iff]
    simp

/-- Witness for C4 at a concrete always-failing target with three attempts:
exactly three posts, sleeps 1, 2, 4, failure reported. -/
theorem C4_witness :
    (∀ j : Nat, (fun _ : Nat => (none : Option Nat)) j ≠ some 200) ∧
    post_with_backoff (fun _ => none) "https://eval.example/cb" 3 =
      ((false, [1, 2, 4]),
       [Eff.callbackPost "https://eval.example/cb" 0,
        Eff.callbackPost "https://eval.example/cb" 1,
        Eff.callbackPost "https://eval.example/cb" 2]) := by
  refine ⟨by intro j; simp, ?_⟩
  rw [C4_retry_bound_uncapped_backoff.1 (fun _ => none) "https://eval.example/cb" 3
    (by intro j; simp)]
  decide

/-- Claim C5 counterexample: an endpoint that starts answering success at time
1, strictly before the deadline 3, is nevertheless reported unreachable —
the only poll happens at time 0 and the next poll would fall past the
deadline — contradicting the claim that success at any `t < D` yields true
before `D`. -/
theorem C5_counterexample_late_success_missed :
    (∀ s, (fun s => decide (1 ≤ s)) s = true ↔ 1 ≤ s) ∧ (1 : Nat) < 3 ∧
    (wait_for_200 (fun s => decide (1 ≤ s)) "https://u.github.io/demo/" 3).1 = (false, 3) := by
  refine ⟨?_, by omega, by decide⟩
  intro s
  simp

/-- Claim C5 (amended): the poller terminates; if the endpoint starts
answering success at `t0` and at least one full polling period remains
before the deadline (`t0 + 3 ≤ D`), it returns true at a poll time in
`[t0, D)`; if the endpoint never succeeds, it returns false at a time at or
after `D`; and the poll outcome never changes the pipeline result — the
handler result is identical under any two `site` oracles. -/
theorem C5_poller_terminates :
    (∀ (site : Nat → Bool) (url : String) (D t0 : Nat),
       (∀ s, site s = true ↔ t0 ≤ s) → t0 + 3 ≤ D →
       ∃ r, (wait_for_200 site url D).1 = (true, r) ∧ t0 ≤ r ∧ r < D)
    ∧ (∀ (site : Nat → Bool) (url : String) (D : Nat),
       (∀ s, site s = false) →
       ∃ r, (wait_for_200 site url D).1 = (false, r) ∧ D ≤ r)
    ∧ (∀ (cfg : Config) (body : TaskPayload) (w : World) (s1 s2 : Nat → Bool),
       (api_task cfg body { w with site := s1 }).1 =
         (api_task cfg body { w with site := s2 }).1) := by
  refine ⟨?_, ?_, ?_⟩
  · intro site url D t0 hsite hD
    exact waitAux_success site url D t0 hsite hD (D + 1) 0 (by omega) (by omega)
  · intro site url D hs
    exact waitAux_never site url D hs (D + 1) 0 (by omega)
  · intro cfg body w s1 s2
    simp only [api_task, api_core_site]
    cases h : (api_core cfg body w).1 <;> simp [h]

/-- Witness for C5 at concrete inputs: success from time 2 under deadline 9 is
reported in time, and a never-succeeding endpoint is reported false only at
or after the deadline. -/
theorem C5_witness :
    (∃ r, (wait_for_200 (fun s => decide (2 ≤ s)) "https://u.github.io/demo/" 9).1 =
      (true, r) ∧ 2 ≤ r ∧ r < 9)
    ∧ (∃ r, (wait_for_200 (fun _ => false) "https://u.github.io/demo/" 9).1 =
      (false, r) ∧ 9 ≤ r) :=
  ⟨C5_poller_terminates.1 (fun s => decide (2 ≤ s)) "https://u.github.io/demo/" 9 2
     (fun s => by simp) (by omega),
   C5_poller_terminates.2.1 (fun _ => false) "https://u.github.io/demo/" 9 (fun s => rfl)⟩

/-- Claim C6 counterexample: when the Pages GET answers an unexpected status
(500 — neither 200 nor 404), the reconciliation step aborts the pipeline
with a 500 error even though no create attempt was made (the trace holds
only the GET), contradicting the claim that it fails only when the create
attempt of an absent configuration errors. -/
theorem C6_counterexample_unexpected_get_aborts :
    ensure_pages_site { okWorld with pagesGetStatus := 500 } "u" "demo" =
      (Except.error (Err.http 500 "Unexpected Pages GET: 500"), [Eff.pagesGet "u" "demo"]) ∧
    ({ okWorld with pagesGetStatus := 500 } : World).pagesGetStatus ≠ 404 :=
  ⟨by decide, by decide⟩

/-- Claim C6 (amended): the Pages reconciliation step fails exactly when
either the configuration was absent (GET 404) and the create attempt did
not answer 201/204, or the initial GET answered an unexpected status
(neither 200 nor 404); whenever a configuration exists (GET 200) the step
succeeds — a misconfigured build type is updated best-effort and an update
failure never aborts the pipeline. -/
theorem C6_pages_failure_characterization :
    (∀ (w : World) (o r : String),
       (ensure_pages_site w o r).1 = Except.ok () ↔
         ((w.pagesGetStatus = 404 ∧ (w.pagesCreateStatus = 201 ∨ w.pagesCreateStatus = 204)) ∨
          w.pagesGetStatus = 200))
    ∧ (∀ (w : World) (o r : String) (u : Nat),
       (ensure_pages_site { w with pagesGetStatus := 200, pagesUpdateStatus := u } o r).1 =
         Except.ok ()) := by
  constructor
  · intro w o r
    unfold ensure_pages_site
    by_cases h4 : w.pagesGetStatus = 404
    · by_cases hc : w.pagesCreateStatus = 201 ∨ w.pagesCreateStatus = 204 <;> simp [h4, hc]
    · by_cases h2 : w.pagesGetStatus = 200
      · by_cases hb : w.pagesBuildType = "workflow" <;> simp [h4, h2, hb]
      · simp [h4, h2]
  · intro w o r u
    by_cases hb : w.pagesBuildType = "workflow" <;> simp [ensure_pages_site, hb]

/-- Claim C7 counterexample: a process started with no environment at all
(both credentials missing) starts up into a servable configuration — the
startup step cannot fail — and a request with the matching (empty) secret
is answered with a per-request 500 error, contradicting the claim that
missing credentials are a fatal startup condition rather than a per-request
error. -/
theorem C7_counterexample_per_request_config_error :
    (startup (fun _ => none)).GITHUB_TOKEN = "" ∧
    (startup (fun _ => none)).GITHUB_USERNAME = "" ∧
    api_task (startup (fun _ => none)) { reqEx with secret := "" } okWorld =
      (Except.error (Err.http 500 "server missing GitHub config"), []) :=
  ⟨rfl, rfl, by decide⟩

/-- Claim C7 (amended): the credentials are read once at startup with
empty-string defaults and never validated there; under a configuration
missing the token or the owner name, every request that passes the secret
check is rejected with the per-request 500 error `server missing GitHub
config`, before any remote side effect. -/
theorem C7_missing_config_rejected_per_request (env : String → Option String)
    (body : TaskPayload) (w : World)
    (h1 : body.secret = (startup env).SECRET)
    (h2 : (startup env).GITHUB_TOKEN = "" ∨ (startup env).GITHUB_USERNAME = "") :
    api_task (startup env) body w =
      (Except.error (Err.http 500 "server missing GitHub config"), []) := by
  rcases h2 with h2 | h2 <;> simp [api_task, api_core, h1, h2]

/-- Witness for C7 at the empty environment and a matching-secret request. -/
theorem C7_witness :
    (({ reqEx with secret := "" } : TaskPayload).secret = (startup (fun _ => none)).SECRET ∧
     ((startup (fun _ => none)).GITHUB_TOKEN = "" ∨
      (startup (fun _ => none)).GITHUB_USERNAME = "")) ∧
    api_task (startup (fun _ => none)) { reqEx with secret := "" } okWorld =
      (Except.error (Err.http 500 "server missing GitHub config"), []) :=
  ⟨⟨by decide, Or.inl (by decide)⟩,
   C7_missing_config_rejected_per_request (fun _ => none) { reqEx with secret := "" } okWorld
     (by decide) (Or.inl (by decide))⟩

/-- Claim C8 counterexample: a concrete request that completes the whole
pipeline receives a document whose keys are exactly `email`, `task`,
`round`, `nonce`, `repo_url`, `commit_sha`, `pages_url` — there is no
`status` key, contradicting the claim that the returned document contains
`status`. -/
theorem C8_counterexample_no_status_key :
    (api_task cfgEx reqEx okWorld).1.map (List.map Prod.fst) =
      Except.ok ["email", "task", "round", "nonce", "repo_url", "commit_sha", "pages_url"] ∧
    ¬ ("status" ∈ ["email", "task", "round", "nonce", "repo_url", "commit_sha", "pages_url"]) :=
  ⟨by decide, by decide⟩

/-- Claim C8 (amended): every request that completes the pipeline receives a
JSON document with exactly the keys `email`, `task`, `round`, `nonce`,
`repo_url`, `commit_sha` and `pages_url`, in that order — and hence no
`status` key. -/
theorem C8_response_keys (cfg : Config) (body : TaskPayload) (w : World)
    (resp : List (String × J)) (h : (api_task cfg body w).1 = Except.ok resp) :
    resp.map Prod.fst =
      ["email", "task", "round", "nonce", "repo_url", "commit_sha", "pages_url"] := by
  rcases hc : (api_core cfg body w).1 with e | cs
  · simp [api_task, hc] at h
  · simp only [api_task, hc] at h
    rw [Except.ok.injEq] at h
    rw [← h]
    simp

/-- Witness for C8 at the benign concrete run. -/
theorem C8_witness :
    (api_task cfgEx reqEx okWorld).1 = Except.ok respEx0 ∧
    respEx0.map Prod.fst =
      ["email", "task", "round", "nonce", "repo_url", "commit_sha", "pages_url"] :=
  ⟨by decide, C8_response_keys cfgEx reqEx okWorld respEx0 (by decide)⟩

/-- Claim C9: merging attachments into the generated file map never overwrites
a generated entry — a path present in the generated map keeps its generated
content, and an attachment is looked up only for paths absent from the
generated map. -/
theorem C9_generated_wins_over_attachment :
    ∀ (files atts : List (String × ByteSeq)) (p : String),
      dlookup (merge_attachments files atts) p =
        match dlookup files p with
        | some v => some v
        | none => dlookup atts p := by
  intro files atts
  induction atts generalizing files with
  | nil =>
    intro p
    have hm : merge_attachments files [] = files := rfl
    rw [hm]
    cases h : dlookup files p <;> simp [h, dlookup]
  | cons a rest ih =>
    intro p
    have step : merge_attachments files (a :: rest) =
        merge_attachments (dsetdefault files a.1 a.2) rest := rfl
    rw [step, ih, dlookup_dsetdefault, dlookup_cons]
    cases h : dlookup files p with
    | some v => simp
    | none =>
      by_cases hpk : p = a.1
      · simp [hpk]
      · have hkp : ¬ a.1 = p := fun hh => hpk hh.symm
        simp [hpk, hkp]

/-- Claim C10: the derived repository name is the task string with every `/`
replaced by `-` character for character — same length, every other
character untouched, no validation — and a request whose task is the empty
string proceeds through the whole pipeline with an empty repository name. -/
theorem C10_repo_name_slash_to_dash :
    (∀ task : String,
       (repoNameOf task).data = task.data.map (fun c => if c = '/' then '-' else c))
    ∧ (∀ task : String, (repoNameOf task).data.length = task.data.length)
    ∧ repoNameOf "a/b.c_d/e" = "a-b.c_d-e"
    ∧ repoNameOf "" = ""
    ∧ exceptOk (api_task cfgEx { reqEx with task := "" } okWorld).1 = true :=
  ⟨fun _ => rfl, fun task => by simp [repoNameOf], by decide, rfl, by decide⟩
